import Mathlib

/-!
Verification development for the `cache-pkgs` command-line tool
(`src/main.go`).

The tool is a linear pipeline of filesystem operations: resolve a cache
root, hash a dependency-specification file, probe the cache for a
directory named by the hash, and either install the cached entry
(symlink or recursive copy) or run an external command and archive its
output into the cache.

The embedding models the filesystem as a finite tree of named nodes
(files with byte contents, directories with entry lists, symbolic
links).  Paths are lists of name components and are taken to be
absolute, so `filepath.Abs` is the identity here.  The external build
command is modelled as an opaque function from filesystem states to a
new state plus an exit status, and the SHA-1 digest from `crypto/sha1`
is an opaque function from byte lists to byte lists; everything the Go
source itself does (hex encoding, cache-key construction, branch
structure, error propagation) is translated directly.

Each run is summarised by the final filesystem, a success flag, and the
ordered trace of the externally visible operations it attempted
(`Op`), which lets the theorems speak about "the command was never
invoked", "the probe happened", and so on.
-/

namespace CachePkgs

/-- A path, as a list of name components.  All paths in the model are
absolute (rooted at the filesystem root). -/
abbrev FPath := List String

/-- A filesystem node: a regular file with byte contents, a directory
with a list of named entries, or a symbolic link storing its target
path. -/
inductive FsNode where
  | file (content : List Nat)
  | dir (entries : List (String × FsNode))
  | symlink (target : FPath)

/-- First entry in a directory listing with the given name. -/
def findEntry (es : List (String × FsNode)) (name : String) : Option FsNode :=
  match es with
  | [] => none
  | e :: rest => if e.1 = name then some e.2 else findEntry rest name

/-- Replace the entry with the given name (or append it if absent). -/
def setEntry (es : List (String × FsNode)) (name : String) (v : FsNode) :
    List (String × FsNode) :=
  match es with
  | [] => [(name, v)]
  | e :: rest => if e.1 = name then (name, v) :: rest else e :: setEntry rest name v

/-- Drop every entry with the given name. -/
def removeEntry (es : List (String × FsNode)) (name : String) :
    List (String × FsNode) :=
  match es with
  | [] => []
  | e :: rest => if e.1 = name then removeEntry rest name else e :: removeEntry rest name

/-- Node at a path, if any (no symlink traversal; paths name nodes
structurally). -/
def lookup : FsNode → FPath → Option FsNode
  | n, [] => some n
  | FsNode.dir es, name :: rest =>
    match findEntry es name with
    | some child => lookup child rest
    | none => none
  | _, _ :: _ => none

/-- Create a node at a path.  Fails (returns `none`) when the path is
empty, when a node already exists there, or when the parent chain is
not a chain of existing directories — matching the failure conditions
of `os.Symlink` and of `cp -R` into a fresh destination. -/
def insertNew : FsNode → FPath → FsNode → Option FsNode
  | FsNode.dir es, [name], v =>
    match findEntry es name with
    | some _ => none
    | none => some (FsNode.dir ((name, v) :: es))
  | FsNode.dir es, name :: rest, v =>
    match findEntry es name with
    | some child => (insertNew child rest v).map fun c => FsNode.dir (setEntry es name c)
    | none => none
  | _, _, _ => none

/-- `os.RemoveAll`: delete the subtree at a path; removing a missing
path is a no-op, never an error. -/
def removeAll : FsNode → FPath → FsNode
  | n, [] => n
  | FsNode.dir es, [name] => FsNode.dir (removeEntry es name)
  | FsNode.dir es, name :: rest =>
    match findEntry es name with
    | some child => FsNode.dir (setEntry es name (removeAll child rest))
    | none => FsNode.dir es
  | n, _ :: _ => n

/-- `os.MkdirAll`: create a directory and all missing parents; fails if
a non-directory is in the way. -/
def mkdirAll : FsNode → FPath → Option FsNode
  | FsNode.dir es, [] => some (FsNode.dir es)
  | FsNode.dir es, name :: rest =>
    match findEntry es name with
    | some child => (mkdirAll child rest).map fun c => FsNode.dir (setEntry es name c)
    | none => (mkdirAll (FsNode.dir []) rest).map fun c => FsNode.dir ((name, c) :: es)
  | _, _ => none

/-- `pathBelow p q` is true when `p` is a (not necessarily proper)
prefix of `q`, i.e. `q` lies at or below `p` in the tree. -/
def pathBelow : FPath → FPath → Bool
  | [], _ => true
  | _ :: _, [] => false
  | a :: p, b :: q => a = b && pathBelow p q

/-- Whether a node is a directory (Go's `FileInfo.IsDir`). -/
def isDirNode : FsNode → Bool
  | FsNode.dir _ => true
  | _ => false

/-- Whether an optional lookup result is a directory. -/
def isSomeDir (o : Option FsNode) : Bool :=
  match o with
  | some n => isDirNode n
  | none => false

/-- Result of `os.Stat`: file info (here just its directory bit), a
"does not exist" error, or any other error. -/
inductive StatRes where
  | ok (isDir : Bool)
  | notExist
  | err (msg : String)
deriving DecidableEq

/-- `os.Stat` over the pure filesystem model.  The pure model has no
permission failures, so it never produces `StatRes.err`; that
constructor models the "any other filesystem error" case of the real
`os.Stat`, and `IsDir` is defined over the full `StatRes` type so its
error propagation is still visible. -/
def statFs (fs : FsNode) (p : FPath) : StatRes :=
  match lookup fs p with
  | some n => StatRes.ok (isDirNode n)
  | none => StatRes.notExist

/-- `IsDir` from `src/main.go`: `os.IsNotExist(err)` gives a cache
miss without error, any other error is surfaced, otherwise report
`info.IsDir()`. -/
def IsDir : StatRes → Except String Bool
  | StatRes.notExist => Except.ok false
  | StatRes.err e => Except.error e
  | StatRes.ok d => Except.ok d

/-- One lowercase hexadecimal digit (the digits used by Go's `%x`). -/
def hexDigit (n : Nat) : Char :=
  if n < 10 then Char.ofNat (48 + n) else Char.ofNat (87 + n)

/-- The two hex digits of one byte, high digit first (Go's `%x` on a
byte slice). -/
def hexByte (b : Nat) : List Char :=
  [hexDigit (b % 256 / 16), hexDigit (b % 256 % 16)]

/-- `fmt.Sprintf("%x", bytes)`: lowercase hex encoding of a byte
sequence. -/
def hexEncode (bs : List Nat) : String :=
  String.mk ((bs.map hexByte).flatten)

/-- `hashFile` from `src/main.go`: open the file, stream its contents
through the digest, and return the hex-encoded sum.  The digest
(`crypto/sha1`, a pure function of the byte stream) is a parameter of
the model. -/
def hashFile (digest : List Nat → List Nat) (fs : FsNode) (fname : FPath) :
    Except String String :=
  match lookup fs fname with
  | some (FsNode.file content) => Except.ok (hexEncode (digest content))
  | some _ => Except.error "read error"
  | none => Except.error "open: no such file or directory"

/-- `ensureDir` from `src/main.go`: stat the path; create it (with
parents) when missing, fail when it exists but is not a directory. -/
def ensureDir (fs : FsNode) (dir : FPath) : Except String FsNode :=
  match statFs fs dir with
  | StatRes.notExist =>
    match mkdirAll fs dir with
    | some fs' => Except.ok fs'
    | none => Except.error "mkdir failed"
  | StatRes.err e => Except.error e
  | StatRes.ok true => Except.ok fs
  | StatRes.ok false => Except.error "exists but is not a dir"

/-- The name-resolution part of `cacheDir` from `src/main.go`,
translated line by line.  `none` stands for the empty string.  Note
the first step is the source's `if dirName == "" { dir = dirName }`,
which assigns `dirName` only when it is empty — a no-op, so the
explicit parameter never takes effect. -/
def resolveCacheName (dirName envCacheDir home : Option FPath) :
    Except String FPath :=
  let dir : Option FPath := none
  let dir : Option FPath := if dirName = none then dirName else dir
  let dir : Option FPath := if dir = none then envCacheDir else dir
  match dir with
  | some d => Except.ok d
  | none =>
    match home with
    | none => Except.error "user: Current not implemented"
    | some h => Except.ok (h ++ [".dep-cache"])

/-- `cacheDir` from `src/main.go`: resolve the cache-root name, then
`ensureDir` it. -/
def cacheDirFs (dirName envCacheDir home : Option FPath) (fs : FsNode) :
    Except String (FPath × FsNode) :=
  match resolveCacheName dirName envCacheDir home with
  | Except.error e => Except.error e
  | Except.ok d =>
    match ensureDir fs d with
    | Except.error e => Except.error e
    | Except.ok fs' => Except.ok (d, fs')

/-- `Copy` from `src/main.go`, i.e. `cp -R a b`: fails when the source
is missing; copies the source subtree to `b` when `b` does not exist,
to `b/<basename a>` when `b` is a directory, and fails when `b` exists
as a non-directory. -/
def Copy (fs : FsNode) (a b : FPath) : Except String FsNode :=
  match lookup fs a with
  | none => Except.error "cp: cannot stat source"
  | some src =>
    match lookup fs b with
    | none =>
      match insertNew fs b src with
      | some fs' => Except.ok fs'
      | none => Except.error "cp: cannot create destination"
    | some (FsNode.dir _) =>
      match a.getLast? with
      | none => Except.error "cp: invalid source"
      | some base =>
        match insertNew fs (b ++ [base]) src with
        | some fs' => Except.ok fs'
        | none => Except.error "cp: cannot create destination"
    | some _ => Except.error "cp: destination exists and is not a directory"

/-- `Install` from `src/main.go`: with the link flag, create at `toP` a
symlink whose target is the (absolute) cache-entry path; otherwise
recursively copy the entry to `toP`.  Paths in the model are already
absolute, so `filepath.Abs` is the identity. -/
def Install (fs : FsNode) (fromP toP : FPath) (link : Bool) :
    Except String FsNode :=
  if link then
    match insertNew fs toP (FsNode.symlink fromP) with
    | some fs' => Except.ok fs'
    | none => Except.error "symlink: file exists"
  else
    Copy fs fromP toP

/-- `GenerateAndCache` from `src/main.go`: run the external command; on
failure return its error, on success copy the generated output
directory into the cache-entry location.  The command is modelled as a
function producing the filesystem it leaves behind plus an exit-success
flag; the second component of the result is `some error` exactly when
the run failed. -/
def GenerateAndCache (cache outputdir : FPath) (gen : FsNode → FsNode × Bool)
    (fs : FsNode) : FsNode × Option String :=
  let res := gen fs
  if res.2 then
    match Copy res.1 outputdir cache with
    | Except.ok fs2 => (fs2, none)
    | Except.error e => (res.1, some e)
  else
    (res.1, some "exit status 1")

/-- Externally visible operations a run can attempt, in order. -/
inductive Op where
  | wipeCache
  | removeOutput
  | probe
  | runUserCmd
  | installLink
  | installCopy
  | archiveCopy
deriving DecidableEq

/-- Outcome of a run: final filesystem, zero-exit flag, and the trace
of attempted operations. -/
structure RunOutcome where
  fs : FsNode
  success : Bool
  ops : List Op

/-- The package-level flags of `src/main.go`. -/
structure Config where
  symlink : Bool
  force : Bool
  clean : Bool

/-- Positional arguments: either fewer than three were supplied, or a
spec-file path, an output path, and the external command (modelled by
its semantics on filesystem states). -/
inductive Argv where
  | insufficient
  | args (depDesc outputdir : FPath) (gen : FsNode → FsNode × Bool)

/-- The "pre build" section of `main`: with the force flag, remove any
existing output path (`os.RemoveAll`, for which a missing path is not
an error); otherwise fail (`none`) unless stat reports the output path
as missing. -/
def preBuild (force : Bool) (fs : FsNode) (outputdir : FPath) :
    Option (FsNode × List Op) :=
  if force then
    some (removeAll fs outputdir, [Op.removeOutput])
  else
    match statFs fs outputdir with
    | StatRes.notExist => some (fs, [])
    | _ => none

/-- The "build" section of `main`: probe the cache with `IsDir`; on a
hit, `Install`; on a miss, `GenerateAndCache`.  The trace records the
probe, the branch taken, and (on the generate branch) whether the
archival copy was attempted. -/
def build (link : Bool) (gen : FsNode → FsNode × Bool) (fs : FsNode)
    (depDir outputdir : FPath) : RunOutcome :=
  match IsDir (statFs fs depDir) with
  | Except.error _ => ⟨fs, false, [Op.probe]⟩
  | Except.ok true =>
    match Install fs depDir outputdir link with
    | Except.ok fs' =>
      ⟨fs', true, [Op.probe, if link then Op.installLink else Op.installCopy]⟩
    | Except.error _ =>
      ⟨fs, false, [Op.probe, if link then Op.installLink else Op.installCopy]⟩
  | Except.ok false =>
    match (GenerateAndCache depDir outputdir gen fs).2 with
    | none =>
      ⟨(GenerateAndCache depDir outputdir gen fs).1, true,
       [Op.probe, Op.runUserCmd] ++ (if (gen fs).2 then [Op.archiveCopy] else [])⟩
    | some _ =>
      ⟨(GenerateAndCache depDir outputdir gen fs).1, false,
       [Op.probe, Op.runUserCmd] ++ (if (gen fs).2 then [Op.archiveCopy] else [])⟩

/-- The stage of `main` after the cache root is resolved, the flags
say this is not a clean run, and three positional arguments are
present: hash the spec file, derive the cache-entry path, run the
pre-build output guard, then branch on the cache probe. -/
def mainArgsStage (cfg : Config) (dd od : FPath) (gen : FsNode → FsNode × Bool)
    (digest : List Nat → List Nat) (cs : FPath) (fs1 : FsNode) : RunOutcome :=
  match hashFile digest fs1 dd with
  | Except.error _ => ⟨fs1, false, []⟩
  | Except.ok h =>
    let depDir := cs ++ [h]
    match preBuild cfg.force fs1 od with
    | none => ⟨fs1, false, []⟩
    | some (fs2, ops0) =>
      let r := build cfg.symlink gen fs2 depDir od
      ⟨r.fs, r.success, ops0 ++ r.ops⟩

/-- The stage of `main` after the cache root is resolved: on `-clean`,
wipe the cache root and exit successfully (positional arguments are
never consulted); otherwise require the three positional arguments and
continue. -/
def mainResolved (cfg : Config) (av : Argv) (digest : List Nat → List Nat)
    (cs : FPath) (fs1 : FsNode) : RunOutcome :=
  if cfg.clean then
    ⟨removeAll fs1 cs, true, [Op.wipeCache]⟩
  else
    match av with
    | Argv.insufficient => ⟨fs1, false, []⟩
    | Argv.args dd od gen => mainArgsStage cfg dd od gen digest cs fs1

/-- `main` from `src/main.go`, as a function of the flags, the
`CACHE_DIR` environment value, the home directory, the positional
arguments, the digest function, and the initial filesystem.  It first
resolves the cache root (`cacheDir("")`), then proceeds through
`mainResolved` / `mainArgsStage`, which together are the remainder of
`main`'s straight-line body. -/
def mainRun (cfg : Config) (envCacheDir home : Option FPath) (av : Argv)
    (digest : List Nat → List Nat) (fs : FsNode) : RunOutcome :=
  match cacheDirFs none envCacheDir home fs with
  | Except.error _ => ⟨fs, false, []⟩
  | Except.ok (cacheStore, fs1) => mainResolved cfg av digest cacheStore fs1

/-! ### Basic lemmas about directory listings -/

theorem findEntry_setEntry_self (es : List (String × FsNode)) (name : String)
    (v : FsNode) : findEntry (setEntry es name v) name = some v := by
  induction es with
  | nil => simp [setEntry, findEntry]
  | cons e rest ih =>
    by_cases h : e.1 = name
    · simp [setEntry, findEntry, h]
    · simp [setEntry, findEntry, h, ih]

theorem findEntry_setEntry_ne (es : List (String × FsNode)) (name m : String)
    (v : FsNode) (h : m ≠ name) :
    findEntry (setEntry es name v) m = findEntry es m := by
  have h1 : ¬ (name = m) := fun hnm => h hnm.symm
  induction es with
  | nil => simp [setEntry, findEntry, h1]
  | cons e rest ih =>
    by_cases he : e.1 = name
    · have h2 : ¬ (e.1 = m) := by rw [he]; exact h1
      simp [setEntry, findEntry, he, h1, h2]
    · simp [setEntry, findEntry, he, ih]

theorem findEntry_removeEntry_self (es : List (String × FsNode)) (name : String) :
    findEntry (removeEntry es name) name = none := by
  induction es with
  | nil => simp [removeEntry, findEntry]
  | cons e rest ih =>
    by_cases h : e.1 = name
    · simp [removeEntry, h, ih]
    · simp [removeEntry, findEntry, h, ih]

theorem findEntry_removeEntry_ne (es : List (String × FsNode)) (name m : String)
    (h : m ≠ name) : findEntry (removeEntry es name) m = findEntry es m := by
  have h1 : ¬ (name = m) := fun hnm => h hnm.symm
  induction es with
  | nil => simp [removeEntry]
  | cons e rest ih =>
    by_cases he : e.1 = name
    · have h2 : ¬ (e.1 = m) := by rw [he]; exact h1
      simp [removeEntry, findEntry, he, h1, h2, ih]
    · simp [removeEntry, findEntry, he, ih]

/-! ### Path prefix order -/

theorem pathBelow_nil (q : FPath) : pathBelow [] q = true := rfl

theorem pathBelow_cons (a b : String) (p q : FPath) :
    pathBelow (a :: p) (b :: q) = (decide (a = b) && pathBelow p q) := rfl

theorem pathBelow_refl : ∀ (p : FPath), pathBelow p p = true := by
  intro p
  induction p with
  | nil => rfl
  | cons a p' ih => simp [pathBelow_cons, ih]

theorem pathBelow_trans : ∀ (p q r : FPath), pathBelow p q = true →
    pathBelow q r = true → pathBelow p r = true := by
  intro p
  induction p with
  | nil => intro q r _ _; rfl
  | cons a p' ih =>
    intro q r h1 h2
    cases q with
    | nil => simp [pathBelow] at h1
    | cons b q' =>
      rw [pathBelow_cons, Bool.and_eq_true, decide_eq_true_eq] at h1
      obtain ⟨hab, h1'⟩ := h1
      cases r with
      | nil => simp [pathBelow] at h2
      | cons c r' =>
        rw [pathBelow_cons, Bool.and_eq_true, decide_eq_true_eq] at h2
        obtain ⟨hbc, h2'⟩ := h2
        rw [pathBelow_cons, Bool.and_eq_true, decide_eq_true_eq]
        exact ⟨hab.trans hbc, ih q' r' h1' h2'⟩

/-! ### Unfolding equations for the tree operations -/

theorem lookup_nil (fs : FsNode) : lookup fs [] = some fs := by
  cases fs <;> rfl

theorem lookup_dir_cons (es : List (String × FsNode)) (name : String)
    (rest : FPath) :
    lookup (FsNode.dir es) (name :: rest) =
      (match findEntry es name with
       | some child => lookup child rest
       | none => none) := rfl

theorem lookup_file_cons (c : List Nat) (name : String) (rest : FPath) :
    lookup (FsNode.file c) (name :: rest) = none := rfl

theorem lookup_symlink_cons (t : FPath) (name : String) (rest : FPath) :
    lookup (FsNode.symlink t) (name :: rest) = none := rfl

theorem insertNew_dir_single (es : List (String × FsNode)) (name : String)
    (v : FsNode) :
    insertNew (FsNode.dir es) [name] v =
      (match findEntry es name with
       | some _ => none
       | none => some (FsNode.dir ((name, v) :: es))) := rfl

theorem insertNew_dir_cons2 (es : List (String × FsNode)) (name r : String)
    (rs : FPath) (v : FsNode) :
    insertNew (FsNode.dir es) (name :: r :: rs) v =
      (match findEntry es name with
       | some child =>
         (insertNew child (r :: rs) v).map fun c => FsNode.dir (setEntry es name c)
       | none => none) := rfl

theorem insertNew_nil (fs v : FsNode) : insertNew fs [] v = none := by
  cases fs <;> rfl

theorem removeAll_dir_single (es : List (String × FsNode)) (name : String) :
    removeAll (FsNode.dir es) [name] = FsNode.dir (removeEntry es name) := rfl

theorem removeAll_dir_cons2 (es : List (String × FsNode)) (name r : String)
    (rs : FPath) :
    removeAll (FsNode.dir es) (name :: r :: rs) =
      (match findEntry es name with
       | some child => FsNode.dir (setEntry es name (removeAll child (r :: rs)))
       | none => FsNode.dir es) := rfl

/-! ### Lookup after insert and remove -/

theorem lookup_below_some : ∀ (p q : FPath) (fs n : FsNode),
    lookup fs q = some n → pathBelow p q = true → ∃ m, lookup fs p = some m := by
  intro p
  induction p with
  | nil => intro q fs n _ _; exact ⟨fs, lookup_nil fs⟩
  | cons a p' ih =>
    intro q fs n hl hb
    cases q with
    | nil => simp [pathBelow] at hb
    | cons b q' =>
      rw [pathBelow_cons, Bool.and_eq_true, decide_eq_true_eq] at hb
      obtain ⟨hab, hb'⟩ := hb
      subst hab
      cases fs with
      | file c => rw [lookup_file_cons] at hl; cases hl
      | symlink t => rw [lookup_symlink_cons] at hl; cases hl
      | dir es =>
        rw [lookup_dir_cons] at hl
        split at hl
        next child heq =>
          obtain ⟨m, hm⟩ := ih q' child n hl hb'
          refine ⟨m, ?_⟩
          rw [lookup_dir_cons, heq]
          exact hm
        next heq => cases hl

theorem lookup_insertNew_self : ∀ (p : FPath) (fs v fs' : FsNode),
    insertNew fs p v = some fs' → lookup fs' p = some v := by
  intro p
  induction p with
  | nil => intro fs v fs' h; rw [insertNew_nil] at h; cases h
  | cons name rest ih =>
    intro fs v fs' h
    cases fs with
    | file c => cases h
    | symlink t => cases h
    | dir es =>
      cases rest with
      | nil =>
        rw [insertNew_dir_single] at h
        split at h
        · cases h
        next heq =>
          injection h with h
          subst h
          rw [lookup_dir_cons]
          simp [findEntry, lookup_nil]
      | cons r rs =>
        rw [insertNew_dir_cons2] at h
        split at h
        next child heq =>
          rw [Option.map_eq_some'] at h
          obtain ⟨c, hins, hc⟩ := h
          subst hc
          rw [lookup_dir_cons, findEntry_setEntry_self]
          exact ih child v c hins
        next heq => cases h

theorem lookup_insertNew_frame : ∀ (p : FPath) (fs v fs' : FsNode) (q : FPath),
    insertNew fs p v = some fs' → pathBelow p q = false → pathBelow q p = false →
    lookup fs' q = lookup fs q := by
  intro p
  induction p with
  | nil => intro fs v fs' q h _ _; rw [insertNew_nil] at h; cases h
  | cons name rest ih =>
    intro fs v fs' q h h1 h2
    cases fs with
    | file c => cases h
    | symlink t => cases h
    | dir es =>
      cases q with
      | nil => rw [pathBelow_nil] at h2; cases h2
      | cons m qs =>
        cases rest with
        | nil =>
          rw [insertNew_dir_single] at h
          split at h
          · cases h
          next heq =>
            injection h with h
            subst h
            have hm : ¬ (name = m) := by
              intro hnm
              subst hnm
              rw [pathBelow_cons] at h1
              simp [pathBelow_nil] at h1
            rw [lookup_dir_cons, lookup_dir_cons]
            simp only [findEntry, hm, if_false]
        | cons r rs =>
          rw [insertNew_dir_cons2] at h
          split at h
          next child heq =>
            rw [Option.map_eq_some'] at h
            obtain ⟨c, hins, hc⟩ := h
            subst hc
            by_cases hm : name = m
            · subst hm
              have hname : (decide (name = name)) = true := by simp
              rw [pathBelow_cons, hname, Bool.true_and] at h1 h2
              rw [lookup_dir_cons, lookup_dir_cons, findEntry_setEntry_self, heq]
              exact ih child v c qs hins h1 h2
            · have hm' : m ≠ name := fun hmn => hm hmn.symm
              rw [lookup_dir_cons, lookup_dir_cons,
                findEntry_setEntry_ne es name m c hm']
          next heq => cases h

theorem lookup_removeAll_self : ∀ (p : FPath) (fs : FsNode), p ≠ [] →
    lookup (removeAll fs p) p = none := by
  intro p
  induction p with
  | nil => intro fs h; exact absurd rfl h
  | cons name rest ih =>
    intro fs _
    cases fs with
    | file c => exact lookup_file_cons c name rest
    | symlink t => exact lookup_symlink_cons t name rest
    | dir es =>
      cases rest with
      | nil =>
        rw [removeAll_dir_single, lookup_dir_cons, findEntry_removeEntry_self]
      | cons r rs =>
        rw [removeAll_dir_cons2]
        cases hfe : findEntry es name with
        | none => rw [lookup_dir_cons, hfe]
        | some child =>
          rw [lookup_dir_cons, findEntry_setEntry_self]
          exact ih child (by simp)

theorem isSomeDir_lookup_removeAll : ∀ (p q : FPath) (fs : FsNode),
    pathBelow p q = false →
    isSomeDir (lookup (removeAll fs p) q) = isSomeDir (lookup fs q) := by
  intro p
  induction p with
  | nil => intro q fs h; rw [pathBelow_nil] at h; cases h
  | cons name rest ih =>
    intro q fs h
    cases fs with
    | file c => rfl
    | symlink t => rfl
    | dir es =>
      cases rest with
      | nil =>
        rw [removeAll_dir_single]
        cases q with
        | nil => rfl
        | cons m qs =>
          have hm : ¬ (name = m) := by
            intro hnm
            subst hnm
            rw [pathBelow_cons] at h
            simp [pathBelow_nil] at h
          rw [lookup_dir_cons, lookup_dir_cons,
            findEntry_removeEntry_ne es name m (fun hmn => hm hmn.symm)]
      | cons r rs =>
        rw [removeAll_dir_cons2]
        cases hfe : findEntry es name with
        | none => rfl
        | some child =>
          cases q with
          | nil => rfl
          | cons m qs =>
            by_cases hm : name = m
            · subst hm
              have hname : (decide (name = name)) = true := by simp
              rw [pathBelow_cons, hname, Bool.true_and] at h
              rw [lookup_dir_cons, lookup_dir_cons, findEntry_setEntry_self, hfe]
              exact ih qs child h
            · have hm' : m ≠ name := fun hmn => hm hmn.symm
              rw [lookup_dir_cons, lookup_dir_cons,
                findEntry_setEntry_ne es name m _ hm']

/-! ### Stat, probe, and pre-build helpers -/

theorem statFs_eq_of_lookup_some (fs n : FsNode) (p : FPath)
    (h : lookup fs p = some n) : statFs fs p = StatRes.ok (isDirNode n) := by
  unfold statFs
  rw [h]

theorem statFs_eq_of_lookup_none (fs : FsNode) (p : FPath)
    (h : lookup fs p = none) : statFs fs p = StatRes.notExist := by
  unfold statFs
  rw [h]

theorem statFs_ok_true_iff (fs : FsNode) (p : FPath) :
    statFs fs p = StatRes.ok true ↔ isSomeDir (lookup fs p) = true := by
  unfold statFs isSomeDir
  cases lookup fs p with
  | some n => simp
  | none => simp

theorem lookup_none_of_statFs_notExist (fs : FsNode) (p : FPath)
    (h : statFs fs p = StatRes.notExist) : lookup fs p = none := by
  unfold statFs at h
  cases hl : lookup fs p with
  | some n => rw [hl] at h; cases h
  | none => rfl

theorem preBuild_force (fs : FsNode) (od : FPath) :
    preBuild true fs od = some (removeAll fs od, [Op.removeOutput]) := rfl

theorem preBuild_noforce_absent (fs : FsNode) (od : FPath)
    (h : lookup fs od = none) : preBuild false fs od = some (fs, []) := by
  unfold preBuild
  rw [statFs_eq_of_lookup_none fs od h]
  rfl

theorem preBuild_noforce_present (fs n : FsNode) (od : FPath)
    (h : lookup fs od = some n) : preBuild false fs od = none := by
  unfold preBuild
  rw [statFs_eq_of_lookup_some fs n od h]
  rfl

theorem preBuild_some_lookup_none (force : Bool) (fs fs2 : FsNode) (od : FPath)
    (ops0 : List Op) (hod : od ≠ [])
    (h : preBuild force fs od = some (fs2, ops0)) : lookup fs2 od = none := by
  cases force with
  | true =>
    rw [preBuild_force] at h
    injection h with h
    injection h with h1 h2
    subst h1
    exact lookup_removeAll_self od fs hod
  | false =>
    cases hl : lookup fs od with
    | some n => rw [preBuild_noforce_present fs n od hl] at h; cases h
    | none =>
      rw [preBuild_noforce_absent fs od hl] at h
      injection h with h
      injection h with h1 h2
      subst h1
      exact hl

/-! ### Copy and Install reduction and extraction -/

theorem Copy_src_none_eq (fs : FsNode) (a b : FPath)
    (ha : lookup fs a = none) :
    Copy fs a b = Except.error "cp: cannot stat source" := by
  unfold Copy
  rw [ha]

theorem Copy_dest_none_eq (fs src : FsNode) (a b : FPath)
    (ha : lookup fs a = some src) (hb : lookup fs b = none) :
    Copy fs a b =
      (match insertNew fs b src with
       | some fs' => Except.ok fs'
       | none => Except.error "cp: cannot create destination") := by
  unfold Copy
  rw [ha, hb]

theorem Copy_dest_file_eq (fs src : FsNode) (c : List Nat) (a b : FPath)
    (ha : lookup fs a = some src) (hb : lookup fs b = some (FsNode.file c)) :
    Copy fs a b = Except.error "cp: destination exists and is not a directory" := by
  unfold Copy
  rw [ha, hb]

theorem Copy_dest_symlink_eq (fs src : FsNode) (t : FPath) (a b : FPath)
    (ha : lookup fs a = some src) (hb : lookup fs b = some (FsNode.symlink t)) :
    Copy fs a b = Except.error "cp: destination exists and is not a directory" := by
  unfold Copy
  rw [ha, hb]

theorem Copy_ok_src_some (fs fs' : FsNode) (a b : FPath)
    (h : Copy fs a b = Except.ok fs') : ∃ n, lookup fs a = some n := by
  cases hla : lookup fs a with
  | some src => exact ⟨src, rfl⟩
  | none => rw [Copy_src_none_eq fs a b hla] at h; cases h

theorem Copy_ok_dest_none (fs fs' : FsNode) (a b : FPath)
    (hb : lookup fs b = none) (h : Copy fs a b = Except.ok fs') :
    ∃ n, lookup fs a = some n ∧ insertNew fs b n = some fs' := by
  obtain ⟨src, hla⟩ := Copy_ok_src_some fs fs' a b h
  rw [Copy_dest_none_eq fs src a b hla hb] at h
  split at h
  next f2 hins =>
    injection h with h
    subst h
    exact ⟨src, hla, hins⟩
  next hins => cases h

theorem Copy_dest_nondir_error (fs n : FsNode) (a b : FPath)
    (hn : isDirNode n = false) (hb : lookup fs b = some n) :
    ∀ fs', Copy fs a b ≠ Except.ok fs' := by
  intro fs' h
  cases hla : lookup fs a with
  | none => rw [Copy_src_none_eq fs a b hla] at h; cases h
  | some src =>
    cases n with
    | file c => rw [Copy_dest_file_eq fs src c a b hla hb] at h; cases h
    | dir es => rw [isDirNode] at hn; cases hn
    | symlink t => rw [Copy_dest_symlink_eq fs src t a b hla hb] at h; cases h

theorem Install_link_eq (fs : FsNode) (fromP toP : FPath) :
    Install fs fromP toP true =
      (match insertNew fs toP (FsNode.symlink fromP) with
       | some fs' => Except.ok fs'
       | none => Except.error "symlink: file exists") := by
  unfold Install
  rw [if_pos rfl]

theorem Install_copy_eq (fs : FsNode) (fromP toP : FPath) :
    Install fs fromP toP false = Copy fs fromP toP := by
  unfold Install
  rw [if_neg (by simp)]

theorem Install_ok_insert (fs fs' : FsNode) (fromP toP : FPath) (link : Bool)
    (hto : lookup fs toP = none) (h : Install fs fromP toP link = Except.ok fs') :
    ∃ v, insertNew fs toP v = some fs' ∧
      (link = true → v = FsNode.symlink fromP) ∧
      (link = false → lookup fs fromP = some v) := by
  cases link with
  | true =>
    rw [Install_link_eq] at h
    split at h
    next f2 hins =>
      injection h with h
      subst h
      exact ⟨FsNode.symlink fromP, hins, fun _ => rfl, fun hf => Bool.noConfusion hf⟩
    next hins => cases h
  | false =>
    rw [Install_copy_eq] at h
    obtain ⟨n, hsrc, hins⟩ := Copy_ok_dest_none fs fs' fromP toP hto h
    exact ⟨n, hins, fun ht => Bool.noConfusion ht, fun _ => hsrc⟩

/-! ### Build and mainRun unfolding -/

theorem build_of_isdir_true (link : Bool) (gen : FsNode → FsNode × Bool)
    (fs : FsNode) (depDir od : FPath)
    (h : IsDir (statFs fs depDir) = Except.ok true) :
    build link gen fs depDir od =
      (match Install fs depDir od link with
       | Except.ok fs' =>
         ⟨fs', true, [Op.probe, if link then Op.installLink else Op.installCopy]⟩
       | Except.error _ =>
         ⟨fs, false, [Op.probe, if link then Op.installLink else Op.installCopy]⟩) := by
  unfold build
  rw [h]

theorem build_of_isdir_false (link : Bool) (gen : FsNode → FsNode × Bool)
    (fs : FsNode) (depDir od : FPath)
    (h : IsDir (statFs fs depDir) = Except.ok false) :
    build link gen fs depDir od =
      (match (GenerateAndCache depDir od gen fs).2 with
       | none =>
         ⟨(GenerateAndCache depDir od gen fs).1, true,
          [Op.probe, Op.runUserCmd] ++ (if (gen fs).2 then [Op.archiveCopy] else [])⟩
       | some _ =>
         ⟨(GenerateAndCache depDir od gen fs).1, false,
          [Op.probe, Op.runUserCmd] ++ (if (gen fs).2 then [Op.archiveCopy] else [])⟩) := by
  unfold build
  rw [h]

theorem IsDir_statFs_true_of_dir (fs : FsNode) (p : FPath)
    (h : isSomeDir (lookup fs p) = true) :
    IsDir (statFs fs p) = Except.ok true := by
  rw [(statFs_ok_true_iff fs p).mpr h]
  rfl

theorem IsDir_statFs_ok (fs : FsNode) (p : FPath) :
    ∃ b, IsDir (statFs fs p) = Except.ok b := by
  unfold statFs
  cases lookup fs p with
  | some n => exact ⟨isDirNode n, rfl⟩
  | none => exact ⟨false, rfl⟩

theorem IsDir_statFs_false_isSomeDir (fs : FsNode) (p : FPath)
    (h : IsDir (statFs fs p) = Except.ok false) :
    isSomeDir (lookup fs p) = false := by
  cases hd : isSomeDir (lookup fs p) with
  | false => rfl
  | true =>
    have h2 := IsDir_statFs_true_of_dir fs p hd
    rw [h] at h2
    injection h2 with h2
    exact Bool.noConfusion h2

theorem build_ops_probe_head (link : Bool) (gen : FsNode → FsNode × Bool)
    (fs : FsNode) (depDir od : FPath) :
    ∃ rest, (build link gen fs depDir od).ops = Op.probe :: rest := by
  unfold build
  split
  all_goals try split
  all_goals exact ⟨_, rfl⟩

theorem mainRun_resolved_eq (cfg : Config) (envCacheDir home : Option FPath)
    (av : Argv) (digest : List Nat → List Nat) (fs fs1 : FsNode) (cs : FPath)
    (hcd : cacheDirFs none envCacheDir home fs = Except.ok (cs, fs1)) :
    mainRun cfg envCacheDir home av digest fs = mainResolved cfg av digest cs fs1 := by
  unfold mainRun
  rw [hcd]

theorem mainResolved_clean_eq (cfg : Config) (av : Argv)
    (digest : List Nat → List Nat) (cs : FPath) (fs1 : FsNode)
    (hclean : cfg.clean = true) :
    mainResolved cfg av digest cs fs1 =
      ⟨removeAll fs1 cs, true, [Op.wipeCache]⟩ := by
  unfold mainResolved
  rw [hclean]
  rfl

theorem mainResolved_args_eq (cfg : Config) (dd od : FPath)
    (gen : FsNode → FsNode × Bool) (digest : List Nat → List Nat) (cs : FPath)
    (fs1 : FsNode) (hclean : cfg.clean = false) :
    mainResolved cfg (Argv.args dd od gen) digest cs fs1 =
      mainArgsStage cfg dd od gen digest cs fs1 := by
  unfold mainResolved
  rw [hclean]
  rfl

theorem mainArgsStage_preBuild_none (cfg : Config) (dd od : FPath)
    (gen : FsNode → FsNode × Bool) (digest : List Nat → List Nat) (cs : FPath)
    (fs1 : FsNode) (key : String)
    (hh : hashFile digest fs1 dd = Except.ok key)
    (hpre : preBuild cfg.force fs1 od = none) :
    mainArgsStage cfg dd od gen digest cs fs1 = ⟨fs1, false, []⟩ := by
  unfold mainArgsStage
  rw [hh, hpre]

theorem mainArgsStage_preBuild_some (cfg : Config) (dd od : FPath)
    (gen : FsNode → FsNode × Bool) (digest : List Nat → List Nat) (cs : FPath)
    (fs1 fs2 : FsNode) (ops0 : List Op) (key : String)
    (hh : hashFile digest fs1 dd = Except.ok key)
    (hpre : preBuild cfg.force fs1 od = some (fs2, ops0)) :
    mainArgsStage cfg dd od gen digest cs fs1 =
      ⟨(build cfg.symlink gen fs2 (cs ++ [key]) od).fs,
       (build cfg.symlink gen fs2 (cs ++ [key]) od).success,
       ops0 ++ (build cfg.symlink gen fs2 (cs ++ [key]) od).ops⟩ := by
  unfold mainArgsStage
  rw [hh, hpre]

theorem mainArgsStage_hash_error (cfg : Config) (dd od : FPath)
    (gen : FsNode → FsNode × Bool) (digest : List Nat → List Nat) (cs : FPath)
    (fs1 : FsNode) (e : String)
    (hh : hashFile digest fs1 dd = Except.error e) :
    mainArgsStage cfg dd od gen digest cs fs1 = ⟨fs1, false, []⟩ := by
  unfold mainArgsStage
  rw [hh]

/-! ### Hex-encoding lemmas -/

/-- A character that Go's `%x` can emit: a decimal digit or one of the
lowercase letters `a`-`f`. -/
def isLowerHexChar (c : Char) : Bool :=
  (48 ≤ c.toNat && c.toNat ≤ 57) || (97 ≤ c.toNat && c.toNat ≤ 102)

theorem hexDigit_lower (n : Nat) (h : n < 16) :
    isLowerHexChar (hexDigit n) = true := by
  interval_cases n <;> decide

theorem hexByte_lower (b : Nat) :
    ∀ ch ∈ hexByte b, isLowerHexChar ch = true := by
  intro ch hm
  have hhi : b % 256 / 16 < 16 := by omega
  have hlo : b % 256 % 16 < 16 := by omega
  simp only [hexByte, List.mem_cons, List.not_mem_nil, or_false] at hm
  rcases hm with rfl | rfl
  · exact hexDigit_lower _ hhi
  · exact hexDigit_lower _ hlo

theorem hex_chars_lower (bs : List Nat) :
    ∀ ch ∈ (bs.map hexByte).flatten, isLowerHexChar ch = true := by
  induction bs with
  | nil => intro ch hm; simp at hm
  | cons b rest ih =>
    intro ch hm
    simp only [List.map_cons, List.flatten_cons, List.mem_append] at hm
    rcases hm with hm | hm
    · exact hexByte_lower b ch hm
    · exact ih ch hm

/-! ### Claim theorems -/

/-- C2: byte-identical files get the same cache key, which is the
lowercase hexadecimal encoding of the content digest; the collision
claim for distinct contents is a property of SHA-1 itself and is not
restated here. -/
theorem hashFile_key_spec (digest : List Nat → List Nat) (fs fs' : FsNode)
    (p p' : FPath) (c : List Nat)
    (h1 : lookup fs p = some (FsNode.file c))
    (h2 : lookup fs' p' = some (FsNode.file c)) :
    hashFile digest fs p = Except.ok (hexEncode (digest c)) ∧
    hashFile digest fs' p' = hashFile digest fs p ∧
    ∀ ch ∈ (hexEncode (digest c)).data, isLowerHexChar ch = true := by
  have e1 : hashFile digest fs p = Except.ok (hexEncode (digest c)) := by
    unfold hashFile
    rw [h1]
  have e2 : hashFile digest fs' p' = Except.ok (hexEncode (digest c)) := by
    unfold hashFile
    rw [h2]
  refine ⟨e1, by rw [e1, e2], ?_⟩
  intro ch hm
  exact hex_chars_lower (digest c) ch hm

/-- Witness for C2 at a concrete pair of filesystems holding the same
one-byte file under different names. -/
theorem hashFile_key_spec_witness :
    hashFile (fun c => c) (FsNode.dir [("a", FsNode.file [171])]) ["a"] =
      Except.ok (hexEncode ((fun (c : List Nat) => c) [171])) ∧
    hashFile (fun c => c) (FsNode.dir [("b", FsNode.file [171])]) ["b"] =
      hashFile (fun c => c) (FsNode.dir [("a", FsNode.file [171])]) ["a"] ∧
    ∀ ch ∈ (hexEncode ((fun (c : List Nat) => c) [171])).data,
      isLowerHexChar ch = true :=
  hashFile_key_spec (fun c => c) (FsNode.dir [("a", FsNode.file [171])])
    (FsNode.dir [("b", FsNode.file [171])]) ["a"] ["b"] [171] rfl rfl

/-- C7: the cache probe reports a hit exactly when the path exists and
is a directory, reports a miss without error when the path does not
exist, and surfaces any other stat error unchanged. -/
theorem IsDir_probe_spec (fs : FsNode) (p : FPath) (e : String) :
    (IsDir (statFs fs p) = Except.ok true ↔
      ∃ es, lookup fs p = some (FsNode.dir es)) ∧
    (lookup fs p = none → IsDir (statFs fs p) = Except.ok false) ∧
    IsDir (StatRes.err e) = Except.error e := by
  refine ⟨⟨?_, ?_⟩, ?_, rfl⟩
  · intro h
    cases hl : lookup fs p with
    | none =>
      rw [statFs_eq_of_lookup_none fs p hl] at h
      cases h
    | some n =>
      rw [statFs_eq_of_lookup_some fs n p hl] at h
      cases n with
      | dir es => exact ⟨es, rfl⟩
      | file c => simp [IsDir, isDirNode] at h
      | symlink t => simp [IsDir, isDirNode] at h
  · rintro ⟨es, hl⟩
    rw [statFs_eq_of_lookup_some fs (FsNode.dir es) p hl]
    rfl
  · intro hl
    rw [statFs_eq_of_lookup_none fs p hl]
    rfl

/-- Witness for C7 at a concrete filesystem with a directory entry. -/
theorem IsDir_probe_spec_witness :
    (IsDir (statFs (FsNode.dir [("d", FsNode.dir [])]) ["d"]) = Except.ok true ↔
      ∃ es, lookup (FsNode.dir [("d", FsNode.dir [])]) ["d"] =
        some (FsNode.dir es)) ∧
    (lookup (FsNode.dir [("d", FsNode.dir [])]) ["d"] = none →
      IsDir (statFs (FsNode.dir [("d", FsNode.dir [])]) ["d"]) = Except.ok false) ∧
    IsDir (StatRes.err "boom") = Except.error "boom" :=
  IsDir_probe_spec (FsNode.dir [("d", FsNode.dir [])]) ["d"] "boom"

/-- C4: when the external command fails, `GenerateAndCache` returns an
error, performs no archival copy (the resulting filesystem is exactly
the one the failed command left behind), and in particular the
cache-key path is unchanged whenever the command itself did not touch
it. -/
theorem GenerateAndCache_error_spec (cache outputdir : FPath)
    (gen : FsNode → FsNode × Bool) (fs : FsNode)
    (hfail : (gen fs).2 = false) :
    (GenerateAndCache cache outputdir gen fs).2.isSome = true ∧
    (GenerateAndCache cache outputdir gen fs).1 = (gen fs).1 ∧
    (lookup (gen fs).1 cache = lookup fs cache →
      lookup (GenerateAndCache cache outputdir gen fs).1 cache = lookup fs cache) := by
  have hG : GenerateAndCache cache outputdir gen fs =
      ((gen fs).1, some "exit status 1") := by
    simp only [GenerateAndCache, hfail, Bool.false_eq_true, if_false]
  rw [hG]
  exact ⟨rfl, rfl, fun h => h⟩

/-- Witness for C4 with a command that always fails and leaves the
filesystem unchanged. -/
theorem GenerateAndCache_error_spec_witness :
    (GenerateAndCache ["cache"] ["out"] (fun f => (f, false)) (FsNode.dir [])).2.isSome = true ∧
    (GenerateAndCache ["cache"] ["out"] (fun f => (f, false)) (FsNode.dir [])).1 =
      ((fun (f : FsNode) => (f, false)) (FsNode.dir [])).1 ∧
    (lookup ((fun (f : FsNode) => (f, false)) (FsNode.dir [])).1 ["cache"] =
        lookup (FsNode.dir []) ["cache"] →
      lookup (GenerateAndCache ["cache"] ["out"] (fun f => (f, false)) (FsNode.dir [])).1 ["cache"] =
        lookup (FsNode.dir []) ["cache"]) :=
  GenerateAndCache_error_spec ["cache"] ["out"] (fun f => (f, false))
    (FsNode.dir []) rfl

/-- C6: the explicit `dirName` parameter of `cacheDir` is ignored (the
source's `if dirName == "" { dir = dirName }` only ever copies the
empty string), so resolution always starts at the environment
variable; at the concrete failing input the explicit parameter loses
to the environment value. -/
theorem cacheDir_param_resolution (dirName envCacheDir home : Option FPath) :
    resolveCacheName dirName envCacheDir home =
      resolveCacheName none envCacheDir home ∧
    resolveCacheName (some ["explicit"]) (some ["envcache"]) (some ["home"]) =
      Except.ok ["envcache"] := by
  constructor
  · unfold resolveCacheName
    cases dirName with
    | none => rfl
    | some d => rfl
  · rfl

/-- Shared helper: on a run whose pre-build guard produced `(fs2, ops0)`
and whose cache-entry path is a directory in `fs2`, the operation trace
is the guard's trace followed by the probe and the install attempt. -/
theorem argsStage_hit_ops (cfg : Config) (dd od : FPath)
    (gen : FsNode → FsNode × Bool) (digest : List Nat → List Nat) (cs : FPath)
    (fs1 fs2 : FsNode) (ops0 : List Op) (key : String)
    (hh : hashFile digest fs1 dd = Except.ok key)
    (hpre : preBuild cfg.force fs1 od = some (fs2, ops0))
    (hdir : isSomeDir (lookup fs2 (cs ++ [key])) = true) :
    (mainArgsStage cfg dd od gen digest cs fs1).ops =
      ops0 ++ [Op.probe, if cfg.symlink then Op.installLink else Op.installCopy] := by
  rw [mainArgsStage_preBuild_some cfg dd od gen digest cs fs1 fs2 ops0 key hh hpre]
  rw [build_of_isdir_true cfg.symlink gen fs2 (cs ++ [key]) od
    (IsDir_statFs_true_of_dir fs2 (cs ++ [key]) hdir)]
  cases hI : Install fs2 (cs ++ [key]) od cfg.symlink with
  | ok f => rfl
  | error e => rfl

/-- C8: a `-clean` run wipes the entire cache root, succeeds, and its
outcome is independent of the positional arguments and of the digest
function (no hashing, no guard, no probe, no install or generate). -/
theorem mainRun_clean_spec (cfg : Config) (envCacheDir home : Option FPath)
    (av : Argv) (digest : List Nat → List Nat) (fs fs1 : FsNode) (cs : FPath)
    (hclean : cfg.clean = true)
    (hcd : cacheDirFs none envCacheDir home fs = Except.ok (cs, fs1))
    (hcs : cs ≠ []) :
    mainRun cfg envCacheDir home av digest fs =
      ⟨removeAll fs1 cs, true, [Op.wipeCache]⟩ ∧
    lookup (removeAll fs1 cs) cs = none ∧
    ∀ (av' : Argv) (digest' : List Nat → List Nat),
      mainRun cfg envCacheDir home av' digest' fs =
        mainRun cfg envCacheDir home av digest fs := by
  have e : ∀ (a : Argv) (d : List Nat → List Nat),
      mainRun cfg envCacheDir home a d fs =
        ⟨removeAll fs1 cs, true, [Op.wipeCache]⟩ :=
    fun a d => (mainRun_resolved_eq cfg envCacheDir home a d fs fs1 cs hcd).trans
      (mainResolved_clean_eq cfg a d cs fs1 hclean)
  exact ⟨e av digest, lookup_removeAll_self cs fs1 hcs,
    fun av' digest' => (e av' digest').trans (e av digest).symm⟩

/-- Witness for C8: a clean run on an initially empty filesystem (the
cache root is created by the resolver, then wiped; the run still
succeeds). -/
theorem mainRun_clean_spec_witness :
    mainRun ⟨true, false, true⟩ (some ["c"]) none Argv.insufficient
        (fun c => c) (FsNode.dir []) =
      ⟨removeAll (FsNode.dir [("c", FsNode.dir [])]) ["c"], true, [Op.wipeCache]⟩ ∧
    lookup (removeAll (FsNode.dir [("c", FsNode.dir [])]) ["c"]) ["c"] = none ∧
    ∀ (av' : Argv) (digest' : List Nat → List Nat),
      mainRun ⟨true, false, true⟩ (some ["c"]) none av' digest' (FsNode.dir []) =
        mainRun ⟨true, false, true⟩ (some ["c"]) none Argv.insufficient
          (fun c => c) (FsNode.dir []) :=
  mainRun_clean_spec ⟨true, false, true⟩ (some ["c"]) none Argv.insufficient
    (fun c => c) (FsNode.dir []) (FsNode.dir [("c", FsNode.dir [])]) ["c"]
    rfl rfl (by decide)

/-- C5: without the force flag an existing output path stops the run
before any cache interaction (no probe, no install, no generate, the
filesystem is untouched); with the force flag the output path is
removed first (a missing output path included), after which the run
proceeds to the probe. -/
theorem mainRun_guard_spec (cfg : Config) (envCacheDir home : Option FPath)
    (dd od : FPath) (gen : FsNode → FsNode × Bool) (digest : List Nat → List Nat)
    (fs fs1 : FsNode) (cs : FPath) (key : String)
    (hclean : cfg.clean = false)
    (hcd : cacheDirFs none envCacheDir home fs = Except.ok (cs, fs1))
    (hh : hashFile digest fs1 dd = Except.ok key)
    (hod : od ≠ []) :
    (cfg.force = false → ∀ n, lookup fs1 od = some n →
      mainRun cfg envCacheDir home (Argv.args dd od gen) digest fs =
        ⟨fs1, false, []⟩) ∧
    (cfg.force = true →
      (∃ rest, (mainRun cfg envCacheDir home (Argv.args dd od gen) digest fs).ops =
        Op.removeOutput :: Op.probe :: rest) ∧
      lookup (removeAll fs1 od) od = none) := by
  have echain : mainRun cfg envCacheDir home (Argv.args dd od gen) digest fs =
      mainArgsStage cfg dd od gen digest cs fs1 :=
    (mainRun_resolved_eq cfg envCacheDir home (Argv.args dd od gen) digest
      fs fs1 cs hcd).trans
      (mainResolved_args_eq cfg dd od gen digest cs fs1 hclean)
  constructor
  · intro hf n hln
    have hpre : preBuild cfg.force fs1 od = none := by
      rw [hf]
      exact preBuild_noforce_present fs1 n od hln
    rw [echain]
    exact mainArgsStage_preBuild_none cfg dd od gen digest cs fs1 key hh hpre
  · intro hf
    have hpre : preBuild cfg.force fs1 od =
        some (removeAll fs1 od, [Op.removeOutput]) := by
      rw [hf]
      exact preBuild_force fs1 od
    refine ⟨?_, lookup_removeAll_self od fs1 hod⟩
    rw [echain, mainArgsStage_preBuild_some cfg dd od gen digest cs fs1
      (removeAll fs1 od) [Op.removeOutput] key hh hpre]
    obtain ⟨rest, hr⟩ :=
      build_ops_probe_head cfg.symlink gen (removeAll fs1 od) (cs ++ [key]) od
    exact ⟨rest, by rw [hr]; rfl⟩

/-- Witness for C5 at a concrete run whose output directory already
exists and whose force flag is off. -/
theorem mainRun_guard_spec_witness :
    ((⟨true, false, false⟩ : Config).force = false → ∀ n,
      lookup (FsNode.dir [("c", FsNode.dir []), ("spec", FsNode.file [171]),
        ("out", FsNode.dir [])]) ["out"] = some n →
      mainRun ⟨true, false, false⟩ (some ["c"]) none
          (Argv.args ["spec"] ["out"] (fun f => (f, true))) (fun c => c)
          (FsNode.dir [("c", FsNode.dir []), ("spec", FsNode.file [171]),
            ("out", FsNode.dir [])]) =
        ⟨FsNode.dir [("c", FsNode.dir []), ("spec", FsNode.file [171]),
          ("out", FsNode.dir [])], false, []⟩) ∧
    ((⟨true, false, false⟩ : Config).force = true →
      (∃ rest, (mainRun ⟨true, false, false⟩ (some ["c"]) none
          (Argv.args ["spec"] ["out"] (fun f => (f, true))) (fun c => c)
          (FsNode.dir [("c", FsNode.dir []), ("spec", FsNode.file [171]),
            ("out", FsNode.dir [])])).ops =
        Op.removeOutput :: Op.probe :: rest) ∧
      lookup (removeAll (FsNode.dir [("c", FsNode.dir []),
        ("spec", FsNode.file [171]), ("out", FsNode.dir [])]) ["out"]) ["out"] =
        none) :=
  mainRun_guard_spec ⟨true, false, false⟩ (some ["c"]) none ["spec"] ["out"]
    (fun f => (f, true)) (fun c => c)
    (FsNode.dir [("c", FsNode.dir []), ("spec", FsNode.file [171]),
      ("out", FsNode.dir [])])
    (FsNode.dir [("c", FsNode.dir []), ("spec", FsNode.file [171]),
      ("out", FsNode.dir [])])
    ["c"] (hexEncode [171]) rfl rfl rfl (by decide)

/-- C3: when the cache-entry path is a directory at the start of a
non-clean run, the guard passes (force set, or output absent), and the
output path does not lie on the entry path, the run takes the install
branch: its trace is exactly guard, probe, install, and the external
command is never invoked. -/
theorem mainRun_cache_hit_installs (cfg : Config) (envCacheDir home : Option FPath)
    (dd od : FPath) (gen : FsNode → FsNode × Bool) (digest : List Nat → List Nat)
    (fs fs1 : FsNode) (cs : FPath) (key : String) (es : List (String × FsNode))
    (hclean : cfg.clean = false)
    (hcd : cacheDirFs none envCacheDir home fs = Except.ok (cs, fs1))
    (hh : hashFile digest fs1 dd = Except.ok key)
    (hentry : lookup fs1 (cs ++ [key]) = some (FsNode.dir es))
    (hguard : cfg.force = true ∨ lookup fs1 od = none)
    (hdisj : pathBelow od (cs ++ [key]) = false) :
    (mainRun cfg envCacheDir home (Argv.args dd od gen) digest fs).ops =
      (if cfg.force then [Op.removeOutput] else []) ++
      [Op.probe, if cfg.symlink then Op.installLink else Op.installCopy] ∧
    Op.runUserCmd ∉ (mainRun cfg envCacheDir home (Argv.args dd od gen) digest fs).ops := by
  have echain : mainRun cfg envCacheDir home (Argv.args dd od gen) digest fs =
      mainArgsStage cfg dd od gen digest cs fs1 :=
    (mainRun_resolved_eq cfg envCacheDir home (Argv.args dd od gen) digest
      fs fs1 cs hcd).trans
      (mainResolved_args_eq cfg dd od gen digest cs fs1 hclean)
  have main_ops : (mainRun cfg envCacheDir home (Argv.args dd od gen) digest fs).ops =
      (if cfg.force then [Op.removeOutput] else []) ++
      [Op.probe, if cfg.symlink then Op.installLink else Op.installCopy] := by
    cases hf : cfg.force with
    | true =>
      have hpre : preBuild cfg.force fs1 od =
          some (removeAll fs1 od, [Op.removeOutput]) := by
        rw [hf]
        exact preBuild_force fs1 od
      have hdir : isSomeDir (lookup (removeAll fs1 od) (cs ++ [key])) = true := by
        rw [isSomeDir_lookup_removeAll od (cs ++ [key]) fs1 hdisj, hentry]
        rfl
      rw [echain, argsStage_hit_ops cfg dd od gen digest cs fs1
        (removeAll fs1 od) [Op.removeOutput] key hh hpre hdir]
      rfl
    | false =>
      have hln : lookup fs1 od = none := by
        cases hguard with
        | inl h => rw [hf] at h; cases h
        | inr h => exact h
      have hpre : preBuild cfg.force fs1 od = some (fs1, []) := by
        rw [hf]
        exact preBuild_noforce_absent fs1 od hln
      have hdir : isSomeDir (lookup fs1 (cs ++ [key])) = true := by
        rw [hentry]
        rfl
      rw [echain, argsStage_hit_ops cfg dd od gen digest cs fs1 fs1 [] key
        hh hpre hdir]
      rfl
  refine ⟨main_ops, ?_⟩
  rw [main_ops]
  cases cfg.force <;> cases cfg.symlink <;> decide

/-- Witness for C3: a concrete cache-hit run (entry present, output
absent, no force) whose trace is probe then symlink install. -/
theorem mainRun_cache_hit_installs_witness :
    (mainRun ⟨true, false, false⟩ (some ["c"]) none
        (Argv.args ["spec"] ["out"] (fun f => (f, true))) (fun c => c)
        (FsNode.dir [("c", FsNode.dir [(hexEncode [171], FsNode.dir [])]),
          ("spec", FsNode.file [171])])).ops =
      (if (⟨true, false, false⟩ : Config).force then [Op.removeOutput] else []) ++
      [Op.probe, if (⟨true, false, false⟩ : Config).symlink then Op.installLink
        else Op.installCopy] ∧
    Op.runUserCmd ∉ (mainRun ⟨true, false, false⟩ (some ["c"]) none
        (Argv.args ["spec"] ["out"] (fun f => (f, true))) (fun c => c)
        (FsNode.dir [("c", FsNode.dir [(hexEncode [171], FsNode.dir [])]),
          ("spec", FsNode.file [171])])).ops :=
  mainRun_cache_hit_installs ⟨true, false, false⟩ (some ["c"]) none ["spec"]
    ["out"] (fun f => (f, true)) (fun c => c)
    (FsNode.dir [("c", FsNode.dir [(hexEncode [171], FsNode.dir [])]),
      ("spec", FsNode.file [171])])
    (FsNode.dir [("c", FsNode.dir [(hexEncode [171], FsNode.dir [])]),
      ("spec", FsNode.file [171])])
    ["c"] (hexEncode [171]) [] rfl rfl rfl rfl (Or.inr rfl) (by decide)

/-- C10: when the cache-key path exists but is a regular file, the
probe reports a miss without error and the run proceeds down the
generate branch (the command is invoked, no install happens). -/
theorem mainRun_nondir_entry_generates (cfg : Config)
    (envCacheDir home : Option FPath) (dd od : FPath)
    (gen : FsNode → FsNode × Bool) (digest : List Nat → List Nat)
    (fs fs1 : FsNode) (cs : FPath) (key : String) (c : List Nat)
    (hclean : cfg.clean = false)
    (hf : cfg.force = false)
    (hcd : cacheDirFs none envCacheDir home fs = Except.ok (cs, fs1))
    (hh : hashFile digest fs1 dd = Except.ok key)
    (hout : lookup fs1 od = none)
    (hfile : lookup fs1 (cs ++ [key]) = some (FsNode.file c)) :
    IsDir (statFs fs1 (cs ++ [key])) = Except.ok false ∧
    Op.runUserCmd ∈ (mainRun cfg envCacheDir home (Argv.args dd od gen) digest fs).ops ∧
    Op.installLink ∉ (mainRun cfg envCacheDir home (Argv.args dd od gen) digest fs).ops ∧
    Op.installCopy ∉ (mainRun cfg envCacheDir home (Argv.args dd od gen) digest fs).ops := by
  have hprobe : IsDir (statFs fs1 (cs ++ [key])) = Except.ok false := by
    rw [statFs_eq_of_lookup_some fs1 (FsNode.file c) (cs ++ [key]) hfile]
    rfl
  have hpre : preBuild cfg.force fs1 od = some (fs1, []) := by
    rw [hf]
    exact preBuild_noforce_absent fs1 od hout
  have echain : mainRun cfg envCacheDir home (Argv.args dd od gen) digest fs =
      mainArgsStage cfg dd od gen digest cs fs1 :=
    (mainRun_resolved_eq cfg envCacheDir home (Argv.args dd od gen) digest
      fs fs1 cs hcd).trans
      (mainResolved_args_eq cfg dd od gen digest cs fs1 hclean)
  have hops : (mainRun cfg envCacheDir home (Argv.args dd od gen) digest fs).ops =
      [Op.probe, Op.runUserCmd] ++
        (if (gen fs1).2 then [Op.archiveCopy] else []) := by
    rw [echain, mainArgsStage_preBuild_some cfg dd od gen digest cs fs1 fs1 []
      key hh hpre]
    rw [build_of_isdir_false cfg.symlink gen fs1 (cs ++ [key]) od hprobe]
    cases hg : (GenerateAndCache (cs ++ [key]) od gen fs1).2 with
    | none => rfl
    | some e => rfl
  refine ⟨hprobe, ?_, ?_, ?_⟩ <;> rw [hops] <;>
    cases (gen fs1).2 <;> decide

/-- Witness for C10: concrete run with a regular file sitting at the
cache-key path. -/
theorem mainRun_nondir_entry_generates_witness :
    IsDir (statFs (FsNode.dir [("c", FsNode.dir [(hexEncode [171],
        FsNode.file [9])]), ("spec", FsNode.file [171])])
      (["c"] ++ [hexEncode [171]])) = Except.ok false ∧
    Op.runUserCmd ∈ (mainRun ⟨true, false, false⟩ (some ["c"]) none
        (Argv.args ["spec"] ["out"] (fun f => (f, false))) (fun c => c)
        (FsNode.dir [("c", FsNode.dir [(hexEncode [171], FsNode.file [9])]),
          ("spec", FsNode.file [171])])).ops ∧
    Op.installLink ∉ (mainRun ⟨true, false, false⟩ (some ["c"]) none
        (Argv.args ["spec"] ["out"] (fun f => (f, false))) (fun c => c)
        (FsNode.dir [("c", FsNode.dir [(hexEncode [171], FsNode.file [9])]),
          ("spec", FsNode.file [171])])).ops ∧
    Op.installCopy ∉ (mainRun ⟨true, false, false⟩ (some ["c"]) none
        (Argv.args ["spec"] ["out"] (fun f => (f, false))) (fun c => c)
        (FsNode.dir [("c", FsNode.dir [(hexEncode [171], FsNode.file [9])]),
          ("spec", FsNode.file [171])])).ops :=
  mainRun_nondir_entry_generates ⟨true, false, false⟩ (some ["c"]) none ["spec"]
    ["out"] (fun f => (f, false)) (fun c => c)
    (FsNode.dir [("c", FsNode.dir [(hexEncode [171], FsNode.file [9])]),
      ("spec", FsNode.file [171])])
    (FsNode.dir [("c", FsNode.dir [(hexEncode [171], FsNode.file [9])]),
      ("spec", FsNode.file [171])])
    ["c"] (hexEncode [171]) [9] rfl rfl rfl rfl rfl rfl

/-- C9: a successful `Install` with the output path absent (as the
pre-flight guard guarantees on a cache-hit run) and not inside the
cache entry leaves every node outside the output path untouched; in
particular every file and directory under the cache-entry path is
exactly what it was before, for both the symlink and the copy mode. -/
theorem Install_preserves_entry (fs fs' : FsNode) (entry toP : FPath)
    (link : Bool)
    (hto : lookup fs toP = none)
    (hdisj : pathBelow entry toP = false)
    (hok : Install fs entry toP link = Except.ok fs') :
    (∀ q, pathBelow toP q = false → pathBelow q toP = false →
      lookup fs' q = lookup fs q) ∧
    (∀ q n, pathBelow entry q = true → lookup fs q = some n →
      lookup fs' q = some n) := by
  obtain ⟨v, hins, hl1, hl2⟩ := Install_ok_insert fs fs' entry toP link hto hok
  constructor
  · intro q h1 h2
    exact lookup_insertNew_frame toP fs v fs' q hins h1 h2
  · intro q n hq hl
    have h1 : pathBelow toP q = false := by
      cases hb : pathBelow toP q with
      | false => rfl
      | true =>
        obtain ⟨m, hm⟩ := lookup_below_some toP q fs n hl hb
        rw [hto] at hm
        cases hm
    have h2 : pathBelow q toP = false := by
      cases hb : pathBelow q toP with
      | false => rfl
      | true =>
        have ht := pathBelow_trans entry q toP hq hb
        rw [hdisj] at ht
        cases ht
    rw [lookup_insertNew_frame toP fs v fs' q hins h1 h2]
    exact hl

/-- Witness for C9: a concrete symlink install out of a two-level cache
entry. -/
theorem Install_preserves_entry_witness :
    (∀ q, pathBelow ["out"] q = false → pathBelow q ["out"] = false →
      lookup (FsNode.dir [("out", FsNode.symlink ["c", "e"]),
        ("c", FsNode.dir [("e", FsNode.dir [("f", FsNode.file [104])])])]) q =
      lookup (FsNode.dir [("c", FsNode.dir [("e",
        FsNode.dir [("f", FsNode.file [104])])])]) q) ∧
    (∀ q n, pathBelow ["c", "e"] q = true →
      lookup (FsNode.dir [("c", FsNode.dir [("e",
        FsNode.dir [("f", FsNode.file [104])])])]) q = some n →
      lookup (FsNode.dir [("out", FsNode.symlink ["c", "e"]),
        ("c", FsNode.dir [("e", FsNode.dir [("f", FsNode.file [104])])])]) q =
        some n) :=
  Install_preserves_entry
    (FsNode.dir [("c", FsNode.dir [("e", FsNode.dir [("f", FsNode.file [104])])])])
    (FsNode.dir [("out", FsNode.symlink ["c", "e"]),
      ("c", FsNode.dir [("e", FsNode.dir [("f", FsNode.file [104])])])])
    ["c", "e"] ["out"] true rfl (by decide) rfl

/-- Initial filesystem of the C1 counterexample: a fresh home
directory (no cache yet) and a one-byte spec file. -/
def c1exFs : FsNode :=
  FsNode.dir [("home", FsNode.dir []), ("spec", FsNode.file [171])]

/-- External command of the C1 counterexample: creates the output
directory `out` with one file and succeeds. -/
def c1exGen : FsNode → FsNode × Bool := fun f =>
  (match insertNew f ["out"] (FsNode.dir [("f", FsNode.file [104])]) with
   | some f2 => f2
   | none => f, true)

/-- The C1 counterexample run: default flags (symlink enabled, no
force, no clean) on a cache miss. -/
def c1exRun : RunOutcome :=
  mainRun ⟨true, false, false⟩ none (some ["home"])
    (Argv.args ["spec"] ["out"] c1exGen) (fun c => c) c1exFs

/-- Whether an optional lookup result is a symbolic link. -/
def nodeIsSymlink : Option FsNode → Bool
  | some (FsNode.symlink _) => true
  | _ => false

/-- C1 counterexample: a successful non-clean run with the symlink
flag enabled (the default) whose output path is a plain directory, not
a symbolic link — the cache-miss branch materialises the output via the
external command and copies it into the cache, it never symlinks. -/
theorem mainRun_symlink_claim_counterexample :
    c1exRun.success = true ∧
    nodeIsSymlink (lookup c1exRun.fs ["out"]) = false := by
  constructor
  · rfl
  · rfl

/-- C1 as amended: at the end of a successful non-clean run (with the
output path off the cache-entry path and an external command that does
not write to the cache-entry path), the output path exists and either
the symlink flag is on and it is a symbolic link whose target is the
cache-entry path (the cache-hit case), or it holds exactly the same
node as the cache entry (the copy and cache-miss cases). -/
theorem mainRun_success_invariant (cfg : Config)
    (envCacheDir home : Option FPath) (dd od : FPath)
    (gen : FsNode → FsNode × Bool) (digest : List Nat → List Nat)
    (fs fs1 : FsNode) (cs : FPath) (key : String)
    (hclean : cfg.clean = false)
    (hcd : cacheDirFs none envCacheDir home fs = Except.ok (cs, fs1))
    (hh : hashFile digest fs1 dd = Except.ok key)
    (hod : od ≠ [])
    (hd1 : pathBelow od (cs ++ [key]) = false)
    (hd2 : pathBelow (cs ++ [key]) od = false)
    (hgen : ∀ f, lookup (gen f).1 (cs ++ [key]) = lookup f (cs ++ [key]))
    (hsucc : (mainRun cfg envCacheDir home (Argv.args dd od gen) digest fs).success = true) :
    ∃ n, lookup (mainRun cfg envCacheDir home (Argv.args dd od gen) digest fs).fs od = some n ∧
      ((cfg.symlink = true ∧ n = FsNode.symlink (cs ++ [key])) ∨
       lookup (mainRun cfg envCacheDir home (Argv.args dd od gen) digest fs).fs (cs ++ [key]) = some n) := by
  have echain : mainRun cfg envCacheDir home (Argv.args dd od gen) digest fs =
      mainArgsStage cfg dd od gen digest cs fs1 :=
    (mainRun_resolved_eq cfg envCacheDir home (Argv.args dd od gen) digest
      fs fs1 cs hcd).trans
      (mainResolved_args_eq cfg dd od gen digest cs fs1 hclean)
  cases hpre : preBuild cfg.force fs1 od with
  | none =>
    rw [echain,
      mainArgsStage_preBuild_none cfg dd od gen digest cs fs1 key hh hpre] at hsucc
    exact Bool.noConfusion hsucc
  | some pr =>
    obtain ⟨fs2, ops0⟩ := pr
    have hb2 : lookup fs2 od = none :=
      preBuild_some_lookup_none cfg.force fs1 fs2 od ops0 hod hpre
    have hstage := mainArgsStage_preBuild_some cfg dd od gen digest cs fs1
      fs2 ops0 key hh hpre
    have hfsEq : (mainRun cfg envCacheDir home (Argv.args dd od gen) digest fs).fs =
        (build cfg.symlink gen fs2 (cs ++ [key]) od).fs := by
      rw [echain, hstage]
    have hsuccEq : (mainRun cfg envCacheDir home (Argv.args dd od gen) digest fs).success =
        (build cfg.symlink gen fs2 (cs ++ [key]) od).success := by
      rw [echain, hstage]
    rw [hsuccEq] at hsucc
    rw [hfsEq]
    obtain ⟨bprobe, hbp⟩ := IsDir_statFs_ok fs2 (cs ++ [key])
    cases bprobe with
    | true =>
      rw [build_of_isdir_true cfg.symlink gen fs2 (cs ++ [key]) od hbp] at hsucc ⊢
      cases hI : Install fs2 (cs ++ [key]) od cfg.symlink with
      | error e =>
        rw [hI] at hsucc
        exact Bool.noConfusion hsucc
      | ok f3 =>
        obtain ⟨v, hins, hlink, hcopy⟩ :=
          Install_ok_insert fs2 f3 (cs ++ [key]) od cfg.symlink hb2 hI
        show ∃ n, lookup f3 od = some n ∧
          ((cfg.symlink = true ∧ n = FsNode.symlink (cs ++ [key])) ∨
            lookup f3 (cs ++ [key]) = some n)
        rcases Bool.eq_false_or_eq_true cfg.symlink with hs | hs
        · refine ⟨v, lookup_insertNew_self od fs2 v f3 hins,
            Or.inl ⟨hs, hlink hs⟩⟩
        · refine ⟨v, lookup_insertNew_self od fs2 v f3 hins, Or.inr ?_⟩
          rw [lookup_insertNew_frame od fs2 v f3 (cs ++ [key]) hins hd1 hd2]
          exact hcopy hs
    | false =>
      rw [build_of_isdir_false cfg.symlink gen fs2 (cs ++ [key]) od hbp] at hsucc ⊢
      cases hg : (GenerateAndCache (cs ++ [key]) od gen fs2).2 with
      | some e =>
        rw [hg] at hsucc
        exact Bool.noConfusion hsucc
      | none =>
        show ∃ n, lookup (GenerateAndCache (cs ++ [key]) od gen fs2).1 od = some n ∧
          ((cfg.symlink = true ∧ n = FsNode.symlink (cs ++ [key])) ∨
            lookup (GenerateAndCache (cs ++ [key]) od gen fs2).1 (cs ++ [key]) = some n)
        cases hgb : (gen fs2).2 with
        | false =>
          have h2 : (GenerateAndCache (cs ++ [key]) od gen fs2).2 =
              some "exit status 1" := by
            simp only [GenerateAndCache, hgb, Bool.false_eq_true, if_false]
          have hcontra := h2.symm.trans hg
          cases hcontra
        | true =>
          have hGC : GenerateAndCache (cs ++ [key]) od gen fs2 =
              (match Copy (gen fs2).1 od (cs ++ [key]) with
               | Except.ok f4 => (f4, none)
               | Except.error e => ((gen fs2).1, some e)) := by
            simp only [GenerateAndCache, hgb, if_true]
          cases hcp : Copy (gen fs2).1 od (cs ++ [key]) with
          | error e =>
            rw [hGC, hcp] at hg
            exact Option.noConfusion hg
          | ok f4 =>
            rw [hGC, hcp]
            show ∃ n, lookup f4 od = some n ∧
              ((cfg.symlink = true ∧ n = FsNode.symlink (cs ++ [key])) ∨
                lookup f4 (cs ++ [key]) = some n)
            have hdest : lookup (gen fs2).1 (cs ++ [key]) =
                lookup fs2 (cs ++ [key]) := hgen fs2
            have hmiss : isSomeDir (lookup fs2 (cs ++ [key])) = false :=
              IsDir_statFs_false_isSomeDir fs2 (cs ++ [key]) hbp
            cases hl2 : lookup fs2 (cs ++ [key]) with
            | some n0 =>
              rw [hl2] at hmiss hdest
              have hn0 : isDirNode n0 = false := hmiss
              exact absurd hcp (Copy_dest_nondir_error (gen fs2).1 n0 od
                (cs ++ [key]) hn0 hdest f4)
            | none =>
              rw [hl2] at hdest
              obtain ⟨n, hsrc, hins⟩ :=
                Copy_ok_dest_none (gen fs2).1 f4 od (cs ++ [key]) hdest hcp
              refine ⟨n, ?_, Or.inr
                (lookup_insertNew_self (cs ++ [key]) (gen fs2).1 n f4 hins)⟩
              rw [lookup_insertNew_frame (cs ++ [key]) (gen fs2).1 n f4 od
                hins hd2 hd1]
              exact hsrc

/-- Witness for the amended C1 at a concrete cache-hit run with the
symlink flag enabled. -/
theorem mainRun_success_invariant_witness :
    ∃ n, lookup (mainRun ⟨true, false, false⟩ (some ["c"]) none
        (Argv.args ["spec"] ["out"] (fun f => (f, true))) (fun c => c)
        (FsNode.dir [("c", FsNode.dir [(hexEncode [171], FsNode.dir [])]),
          ("spec", FsNode.file [171])])).fs ["out"] = some n ∧
      (((⟨true, false, false⟩ : Config).symlink = true ∧
          n = FsNode.symlink (["c"] ++ [hexEncode [171]])) ∨
       lookup (mainRun ⟨true, false, false⟩ (some ["c"]) none
          (Argv.args ["spec"] ["out"] (fun f => (f, true))) (fun c => c)
          (FsNode.dir [("c", FsNode.dir [(hexEncode [171], FsNode.dir [])]),
            ("spec", FsNode.file [171])])).fs (["c"] ++ [hexEncode [171]]) =
         some n) :=
  mainRun_success_invariant ⟨true, false, false⟩ (some ["c"]) none ["spec"]
    ["out"] (fun f => (f, true)) (fun c => c)
    (FsNode.dir [("c", FsNode.dir [(hexEncode [171], FsNode.dir [])]),
      ("spec", FsNode.file [171])])
    (FsNode.dir [("c", FsNode.dir [(hexEncode [171], FsNode.dir [])]),
      ("spec", FsNode.file [171])])
    ["c"] (hexEncode [171]) rfl rfl rfl (by decide) (by decide) (by decide)
    (fun f => rfl) rfl

end CachePkgs
